import Mathlib

/-!
Verification of the OPI library (ORCA python interface) against its
natural-language specification.  The Python sources under `src/opi/` are
shallowly embedded below: pure parsing helpers become Lean functions on
`String`/`List String`, the file system and process environment become
explicit state records, and Python exceptions become an `Except` error type
whose constructors name the Python exception classes.

Modelling conventions:
* Python text streams are modelled as `List String`, one entry per line with
  the trailing newline removed; `readline` at end-of-file (the falsy `""`)
  corresponds to the empty list.
* Python `float` values parsed from numeric literals are modelled as exact
  rationals (`Rat`); none of the verified code performs arithmetic on them,
  it only stores and compares the extracted literals.
* Exception messages (which interpolate line numbers etc.) are elided; only
  the exception class is tracked, which is what the specification talks
  about.
-/

namespace Opi

/-- The Python exception classes raised by the embedded code. -/
inductive PyErr where
  | eofErr : PyErr
  | valueErr : PyErr
  | fileNotFoundErr : PyErr
  | typeErr : PyErr
  | runtimeErr : PyErr
  | timeoutExpired : PyErr
deriving DecidableEq, Repr

instance {ε α : Type} [DecidableEq ε] [DecidableEq α] : DecidableEq (Except ε α) :=
  fun a b =>
    match a, b with
    | .ok x, .ok y =>
      if h : x = y then .isTrue (by rw [h]) else .isFalse (by simp [h])
    | .error x, .error y =>
      if h : x = y then .isTrue (by rw [h]) else .isFalse (by simp [h])
    | .ok _, .error _ => .isFalse (by simp)
    | .error _, .ok _ => .isFalse (by simp)

/-- ASCII model of Python `str.isspace` for the characters that occur in
XYZ data (space, tab, newline, carriage return, vertical tab, form feed). -/
def pyIsSpace (c : Char) : Bool :=
  c = ' ' ∨ c = '\t' ∨ c = '\n' ∨ c = '\r' ∨ c = '\x0b' ∨ c = '\x0c'

/-- Model of Python `str.lstrip()` (remove leading whitespace). -/
def pyLstrip (s : String) : String :=
  String.mk (s.toList.dropWhile pyIsSpace)

/-- Model of Python `str.strip()` (remove whitespace on both sides). -/
def pyStrip (s : String) : String :=
  String.mk (((s.toList.dropWhile pyIsSpace).reverse.dropWhile pyIsSpace).reverse)

/-- Helper for `pySplit`: split a character list at whitespace runs. -/
def splitWsAux : List Char → List Char → List String
  | [], acc => if acc.isEmpty then [] else [String.mk acc.reverse]
  | c :: cs, acc =>
    if pyIsSpace c then
      if acc.isEmpty then splitWsAux cs [] else String.mk acc.reverse :: splitWsAux cs []
    else splitWsAux cs (c :: acc)

/-- Model of Python `str.split()` with no argument: split on runs of
whitespace, discarding empty pieces. -/
def pySplit (s : String) : List String :=
  splitWsAux s.toList []

/-- `[A-Za-z]` of the comment-line number regex. -/
def isAsciiLetter (c : Char) : Bool :=
  ('A' ≤ c ∧ c ≤ 'Z') ∨ ('a' ≤ c ∧ c ≤ 'z')

/-- `\d` (ASCII) of the comment-line number regex. -/
def isDigitChar (c : Char) : Bool :=
  '0' ≤ c ∧ c ≤ '9'

/-- Numeric value of a digit character. -/
def digitVal (c : Char) : Nat := c.toNat - '0'.toNat

/-- Accumulating value of a digit string. -/
def digitsVal (acc : Nat) : List Char → Nat
  | [] => acc
  | c :: cs => digitsVal (acc * 10 + digitVal c) cs

/-- Digit-and-underscore tail of a Python integer literal: an underscore is
only legal between two digits (model of `int(str)` grammar). -/
def pyIntTail (acc : Nat) : List Char → Option Nat
  | [] => some acc
  | '_' :: c :: rest =>
    if isDigitChar c then pyIntTail (acc * 10 + digitVal c) rest else none
  | '_' :: [] => none
  | c :: rest =>
    if isDigitChar c then pyIntTail (acc * 10 + digitVal c) rest else none

/-- Unsigned part of a Python integer literal: at least one digit, with
optional single underscores between digits. -/
def pyIntCore : List Char → Option Nat
  | c :: rest => if isDigitChar c then pyIntTail (digitVal c) rest else none
  | [] => none

/-- Model of Python `int(s)` on strings: strip whitespace, optional sign,
digits with underscores between digits.  Returns `none` where Python raises
`ValueError`. -/
def pyInt (s : String) : Option Int :=
  match (pyStrip s).toList with
  | '+' :: rest => (pyIntCore rest).map Int.ofNat
  | '-' :: rest => (pyIntCore rest).map (fun n => -(n : Int))
  | cs => (pyIntCore cs).map Int.ofNat

/-- Does the list start with an ASCII letter?  Used for the `(?![A-Za-z])`
lookahead and the `(?<![A-Za-z])` lookbehind of `RGX_INT_AND_FLOAT`. -/
def headIsLetter : List Char → Bool
  | [] => false
  | c :: _ => isAsciiLetter c

/-- Optional sign `[+-]?` consumption (greedy). -/
def optSign : List Char → List Char × List Char
  | c :: r => if c = '+' ∨ c = '-' then ([c], r) else ([], c :: r)
  | [] => ([], [])

/-- Tail of a `RGX_INT_AND_FLOAT` match after the mantissa: the optional
exponent `(?:[Ee][+-]?\d+)?` followed by the `(?![A-Za-z])` lookahead, with
Python `re` backtracking (greedy exponent, shrunk by one digit when the
lookahead would hit a letter).  Returns the consumed characters and the
remainder, or `none` when no continuation satisfies the lookahead. -/
def expCont (cs : List Char) : Option (List Char × List Char) :=
  match cs with
  | [] => some ([], [])
  | c :: rest1 =>
    if c = 'E' ∨ c = 'e' then
      let sgn := (optSign rest1).1
      let rest2 := (optSign rest1).2
      let ds := rest2.takeWhile isDigitChar
      let rest3 := rest2.dropWhile isDigitChar
      if hds : ds = [] then none
      else if ¬ headIsLetter rest3 then some (c :: (sgn ++ ds), rest3)
      else if 2 ≤ ds.length then
        some (c :: (sgn ++ ds.dropLast), ds.getLast hds :: rest3)
      else none
    else if isAsciiLetter c then none
    else some ([], c :: rest1)

/-- Mantissa alternatives `\d+\.\d* | \.\d+ | \d+` of `RGX_INT_AND_FLOAT`
followed by `expCont`, in Python `re` alternative order with greedy
quantifiers and single-digit give-back where the lookahead requires it.
`d1` is the (greedy) leading digit run, `r1` the remainder after it. -/
def numBodyAux (d1 r1 : List Char) : Option (List Char × List Char) :=
  if hd1 : d1 = [] then
    match r1 with
    | '.' :: r2 =>
      let frac := r2.takeWhile isDigitChar
      let r3 := r2.dropWhile isDigitChar
      if hf : frac = [] then none
      else
        match expCont r3 with
        | some (e, rest) => some ('.' :: (frac ++ e), rest)
        | none =>
          if 2 ≤ frac.length then
            some ('.' :: frac.dropLast, frac.getLast hf :: r3)
          else none
    | _ => none
  else
    match r1 with
    | '.' :: r2 =>
      let frac := r2.takeWhile isDigitChar
      let r3 := r2.dropWhile isDigitChar
      match expCont r3 with
      | some (e, rest) => some (d1 ++ '.' :: (frac ++ e), rest)
      | none =>
        if hf : frac = [] then
          some (d1, '.' :: r2)
        else
          some (d1 ++ '.' :: frac.dropLast, frac.getLast hf :: r3)
    | _ =>
      match expCont r1 with
      | some (e, rest) => some (d1 ++ e, rest)
      | none =>
        if 2 ≤ d1.length then
          some (d1.dropLast, d1.getLast hd1 :: r1)
        else none

/-- The mantissa-plus-exponent matcher on a raw character list (the leading
digit run of `\d+` is greedy, so it is the `takeWhile` prefix). -/
def numBody (cs : List Char) : Option (List Char × List Char) :=
  numBodyAux (cs.takeWhile isDigitChar) (cs.dropWhile isDigitChar)

/-- One attempted match of `RGX_INT_AND_FLOAT` at the current position:
lookbehind on the previous character, optional sign, then `numBody`. -/
def matchNum (prev : Option Char) (cs : List Char) : Option (List Char × List Char) :=
  if (match prev with | some p => isAsciiLetter p | none => false) then none
  else
    match cs with
    | c :: rest =>
      if c = '+' ∨ c = '-' then
        match numBody rest with
        | some (m, r) => some (c :: m, r)
        | none => none
      else numBody (c :: rest)
    | [] => none

/-- Left-to-right non-overlapping scan of `re.findall(RGX_INT_AND_FLOAT, s)`:
try a match at each position; on success continue after the match, otherwise
advance one character.  `prev` is the character preceding the current
position (for the lookbehind).  The scan consumes at least one character per
step (`matchNum_rest_lt`), so the explicit `fuel` — always instantiated with
`cs.length + 1` — never runs out; it only makes the recursion structural. -/
def scanNums (fuel : Nat) (prev : Option Char) (cs : List Char) : List String :=
  match fuel with
  | 0 => []
  | fuel + 1 =>
    match matchNum prev cs with
    | some (m, rest) => String.mk m :: scanNums fuel (some (m.getLastD ' ')) rest
    | none =>
      match cs with
      | [] => []
      | c :: rest => scanNums fuel (some c) rest

/-- Model of `re.findall(RGX_INT_AND_FLOAT, line)`: the list of numeric
literals found on `line`. -/
def findNumbers (s : String) : List String :=
  scanNums (s.toList.length + 1) none s.toList

/-- Exact rational denotation of a numeric literal matched by
`RGX_INT_AND_FLOAT` (shape `[+-]?(\d+\.\d*|\.\d+|\d+)([Ee][+-]?\d+)?`).
Models Python `float(m)`; the Python value is the nearest binary64 to this
rational, and the embedded code does no arithmetic on it. -/
def ratOfLit (s : String) : Rat :=
  let signAndRest : Int × List Char :=
    match s.toList with
    | '+' :: r => (1, r)
    | '-' :: r => (-1, r)
    | cs => (1, cs)
  let cs := signAndRest.2
  let ip := cs.takeWhile isDigitChar
  let r1 := cs.dropWhile isDigitChar
  let fracAndRest : List Char × List Char :=
    match r1 with
    | '.' :: t => (t.takeWhile isDigitChar, t.dropWhile isDigitChar)
    | _ => ([], r1)
  let fp := fracAndRest.1
  let r2 := fracAndRest.2
  let expPart : Int :=
    match r2 with
    | e :: t =>
      if e = 'E' ∨ e = 'e' then
        match t with
        | '-' :: t2 => -(digitsVal 0 (t2.takeWhile isDigitChar) : Int)
        | '+' :: t2 => (digitsVal 0 (t2.takeWhile isDigitChar) : Int)
        | t2 => (digitsVal 0 (t2.takeWhile isDigitChar) : Int)
      else 0
    | [] => 0
  let sign : Int := if signAndRest.1 < 0 then -1 else 1
  let mantNum : Nat := digitsVal 0 ip * 10 ^ fp.length + digitsVal 0 fp
  if 0 ≤ expPart then
    mkRat (sign * (mantNum * 10 ^ expPart.toNat : Nat)) (10 ^ fp.length)
  else
    mkRat (sign * mantNum) (10 ^ fp.length * 10 ^ (-expPart).toNat)

/-- Model of Python `int(x)` on a float value: truncation toward zero
(exact on the rational denotation). -/
def pyIntOfRat (q : Rat) : Int :=
  q.num.tdiv (q.den : Int)

/-- Model of `opi.input.structures.properties.Properties`: per-structure
scalar annotations read from the comment line of an XYZ block. -/
structure Properties where
  structure_id : Option Int := none
  energy_total : Option Rat := none
  energy_relative : Option Rat := none
deriving DecidableEq, Repr

/-- Model of `Properties.docker_energies`: extract all numbers from the
comment line; the structure id is `int(numbers[0])`, the total energy
`numbers[1]`, the relative energy `numbers[2]`; fewer than three numbers
raise `ValueError` (via `IndexError`). -/
def docker_energies (line : String) : Except PyErr Properties :=
  match findNumbers line with
  | n0 :: n1 :: n2 :: _ =>
    .ok { structure_id := some (pyIntOfRat (ratOfLit n0)),
          energy_total := some (ratOfLit n1),
          energy_relative := some (ratOfLit n2) }
  | _ => .error .valueErr

/-- Model of `Properties.goat_energies`: extract all numbers from the
comment line; only the total energy (`numbers[0]`) is stored; no numbers
raise `ValueError` (via `IndexError`). -/
def goat_energies (line : String) : Except PyErr Properties :=
  match findNumbers line with
  | n0 :: _ => .ok { energy_total := some (ratOfLit n0) }
  | [] => .error .valueErr

/-- The `mode` literal of the parsing entry points. -/
inductive XyzMode where
  | goat : XyzMode
  | docker : XyzMode
deriving DecidableEq, Repr

/-- The `mode_functions` dispatch of `Properties.from_xyz_buffer`. -/
def modeFun : XyzMode → String → Except PyErr Properties
  | .goat => goat_energies
  | .docker => docker_energies

/-- `line.lstrip().startswith(comments_tuple)` guarded by the truthiness of
`comments_tuple` (`none` models both `None` and the empty tuple; a single
comment string becomes a one-element list, as in the Python conversion). -/
def isCommentLine (cts : Option (List String)) (line : String) : Bool :=
  match cts with
  | none => false
  | some ps => ps.any (fun p => p.toList.isPrefixOf (pyLstrip line).toList)

/-- The leading `while` loop of `Properties.from_xyz_buffer`: skip blank and
user-comment lines; return the first data line and the remaining lines, or
`none` at end of file. -/
def skipJunk (cts : Option (List String)) : List String → Option (String × List String)
  | [] => none
  | l :: rest =>
    if (pyLstrip l).isEmpty then skipJunk cts rest
    else if isCommentLine cts l then skipJunk cts rest
    else some (l, rest)

/-- Model of `Properties.from_xyz_buffer`: skip junk lines, read the atom
count from the first token of the header (`int(line.split()[0])`, whose
`ValueError`/`IndexError` become `ValueError`), read the comment line,
extract the properties for `mode`, then skip the `natoms` atom lines
(`range(natoms)` of a negative count is empty), raising `ValueError` if the
buffer ends early.  Returns the properties and the unconsumed lines. -/
def from_xyz_buffer (cts : Option (List String)) (mode : XyzMode)
    (lines : List String) : Except PyErr (Properties × List String) :=
  match skipJunk cts lines with
  | none => .error .eofErr
  | some (header, r1) =>
    match (pySplit header).head? with
    | none => .error .valueErr
    | some tok =>
      match pyInt tok with
      | none => .error .valueErr
      | some natoms =>
        match r1 with
        | [] => .error .valueErr
        | comment :: r2 =>
          match modeFun mode comment with
          | .error e => .error e
          | .ok props =>
            if r2.length < natoms.toNat then .error .valueErr
            else .ok (props, r2.drop natoms.toNat)

/-- The generator loop of `Properties._iter_xyz_structures` (after the
`n_struc_limit` guard): parse structures until `EOFError` (end of data) or
until the structure count reaches the limit; other errors propagate.
`nstruc` is the number of structures already yielded.  Each successful parse
consumes at least one line (`from_xyz_buffer_rest_lt`), so the explicit
`fuel` — always instantiated with `lines.length + 1` — never runs out; it
only makes the recursion structural. -/
def iterGo (cts : Option (List String)) (mode : XyzMode) (limit : Option Int) :
    Nat → Int → List String → Except PyErr (List Properties)
  | 0, _, _ => .ok []
  | fuel + 1, nstruc, lines =>
    match from_xyz_buffer cts mode lines with
    | .error .eofErr => .ok []
    | .error e => .error e
    | .ok (p, rest) =>
      if (match limit with
          | some m => decide (¬m = 0 ∧ nstruc + 1 ≥ m)
          | none => false) then
        .ok [p]
      else
        match iterGo cts mode limit fuel (nstruc + 1) rest with
        | .error e => .error e
        | .ok ps => .ok (p :: ps)

/-- Model of `Properties._iter_xyz_structures` (run to a list, as its
callers do via `list(...)`): a non-`None` limit `≤ 0` raises `ValueError`,
then the generator loop runs with the structure counter at zero. -/
def _iter_xyz_structures (cts : Option (List String)) (mode : XyzMode)
    (limit : Option Int) (lines : List String) : Except PyErr (List Properties) :=
  match limit with
  | some m =>
    if m ≤ 0 then .error .valueErr
    else iterGo cts mode (some m) (lines.length + 1) 0 lines
  | none => iterGo cts mode none (lines.length + 1) 0 lines

/-- Model of `Properties.from_trj_xyz_block` on an already split line list:
collect the structures and raise `EOFError` if none were found. -/
def from_trj_xyz_blockL (mode : XyzMode) (cts : Option (List String))
    (limit : Option Int) (lines : List String) : Except PyErr (List Properties) :=
  match _iter_xyz_structures cts mode limit lines with
  | .error e => .error e
  | .ok [] => .error .eofErr
  | .ok ps => .ok ps

/-- Split a character list at newline characters (the pieces, in order,
without the newlines). -/
def splitAtNl : List Char → List Char → List String
  | [], acc => [String.mk acc.reverse]
  | '\n' :: r, acc => String.mk acc.reverse :: splitAtNl r []
  | c :: r, acc => splitAtNl r (c :: acc)

/-- The lines that `TrackingTextIO.readline` yields on a string: split at
newlines, with the trailing newline of each line stripped (an empty final
piece corresponds to end of file, not to a line). -/
def linesOf (s : String) : List String :=
  if s.isEmpty then []
  else
    let ps := splitAtNl s.toList []
    if ps.getLast? = some "" then ps.dropLast else ps

/-- Model of `Properties.from_trj_xyz_block` on the trajectory string. -/
def from_trj_xyz_block (mode : XyzMode) (cts : Option (List String))
    (limit : Option Int) (s : String) : Except PyErr (List Properties) :=
  from_trj_xyz_blockL mode cts limit (linesOf s)

/-- Model of `Properties.from_trj_xyz`.  The file system is modelled by the
argument: `none` when no file exists at the given path (raising
`FileNotFoundError`), `some content` for the file's text. -/
def from_trj_xyz (mode : XyzMode) (cts : Option (List String))
    (limit : Option Int) (file : Option String) : Except PyErr (List Properties) :=
  match file with
  | none => .error .fileNotFoundErr
  | some content => from_trj_xyz_block mode cts limit content

/-- Model of `Properties.from_xyz`: `from_trj_xyz` with `n_struc_limit=1`,
taking the first element (the `[]`-case is unreachable because
`from_trj_xyz` raises on an empty result). -/
def from_xyz (mode : XyzMode) (file : Option String) : Except PyErr Properties :=
  match from_trj_xyz mode none (some 1) file with
  | .error e => .error e
  | .ok (p :: _) => .ok p
  | .ok [] => .error .eofErr

/-- Model of `Properties.from_xyz_block`: `from_trj_xyz_block` with
`n_struc_limit=1`, taking the first element. -/
def from_xyz_block (mode : XyzMode) (s : String) : Except PyErr Properties :=
  match from_trj_xyz_block mode none (some 1) s with
  | .error e => .error e
  | .ok (p :: _) => .ok p
  | .ok [] => .error .eofErr

/-- One structure of a multi-structure XYZ trajectory, as laid out in the
file: optional leading junk lines (blank or user comments), the atom-count
header, the comment line, and the atom lines. -/
structure XYZBlock where
  junk : List String
  header : String
  comment : String
  atoms : List String

/-- The lines of the block, in file order. -/
def XYZBlock.toLines (b : XYZBlock) : List String :=
  b.junk ++ b.header :: b.comment :: b.atoms

/-- The lines of a whole trajectory: the blocks in file order. -/
def blocksLines (bs : List XYZBlock) : List String :=
  (bs.map XYZBlock.toLines).flatten

/-- A block is well formed for the given comment symbols and mode when its
junk lines are all skippable, its header is a data line whose first token is
the integer atom count matching the atom lines, and its comment line yields
properties in the given mode. -/
def wellFormedBlock (cts : Option (List String)) (mode : XyzMode) (b : XYZBlock) : Bool :=
  b.junk.all (fun l => (pyLstrip l).isEmpty || isCommentLine cts l) &&
  !(pyLstrip b.header).isEmpty &&
  !isCommentLine cts b.header &&
  (match (pySplit b.header).head? with
   | some tok => pyInt tok = some (b.atoms.length : Int)
   | none => false) &&
  (modeFun mode b.comment).isOk

/-- The properties carried by a well-formed block's comment line. -/
def propsOfBlock (mode : XyzMode) (b : XYZBlock) : Properties :=
  match modeFun mode b.comment with
  | .ok p => p
  | .error _ => {}

theorem optSign_append (cs : List Char) : (optSign cs).1 ++ (optSign cs).2 = cs := by
  cases cs with
  | nil => rfl
  | cons c r =>
    simp only [optSign]
    split <;> rfl

/-- Model of `opi.lib.orca_binary.OrcaBinary`, the enumeration of the ORCA
binaries invoked through the runner (its module is not part of the sources
at hand; the enumeration values are those used by `Runner`). -/
inductive OrcaBinary where
  | orca : OrcaBinary
  | orca_plot : OrcaBinary
  | orca_2json : OrcaBinary
deriving DecidableEq, Repr

/-- The on-disk name of a binary (`resolve_binary_name` on Linux returns the
name unaltered; the Windows `.exe` branch is not modelled). -/
def binName : OrcaBinary → String
  | .orca => "orca"
  | .orca_plot => "orca_plot"
  | .orca_2json => "orca_2json"

/-- The process environment (`os.environ`), an insertion-ordered mapping
from variable names to values. -/
abbrev Env : Type := List (String × String)

/-- `env.get(k)`. -/
def envGet : Env → String → Option String
  | [], _ => none
  | p :: t, k => if p.1 = k then some p.2 else envGet t k

/-- `env[k] = v` (update the existing entry in place, else append, as
Python dicts do). -/
def envSet : Env → String → String → Env
  | [], k, v => [(k, v)]
  | q :: t, k, v => if q.1 = k then (k, v) :: t else q :: envSet t k v

/-- Split a character list at every occurrence of `sep` (keeping empty
pieces, like Python `str.split(sep)`). -/
def splitCharList (sep : Char) : List Char → List Char → List String
  | [], acc => [String.mk acc.reverse]
  | c :: r, acc =>
    if c = sep then String.mk acc.reverse :: splitCharList sep r []
    else splitCharList sep r (c :: acc)

/-- `s.split(os.pathsep)` on Linux (`os.pathsep = ":"`). -/
def pathSplit (s : String) : List String :=
  splitCharList ':' s.toList []

/-- `os.pathsep.join(l)` on Linux. -/
def pathJoin : List String → String
  | [] => ""
  | x :: xs => xs.foldl (fun a b => a ++ ":" ++ b) x

/-- Model of `opi.utils.misc.add_to_env`: split the current value of
`variable` at the path separator, skip the insertion when `value` is already
at the desired end, otherwise prepend or append it and store the joined
list.  (The `TypeError` guards are enforced by typing here.) -/
def add_to_env (varName value : String) (prepend : Bool) (env : Env) : Env :=
  let current_values := pathSplit ((envGet env varName).getD "")
  let do_add :=
    match (if prepend then current_values.head? else current_values.getLast?) with
    | some v => decide (v ≠ value)
    | none => true
  if do_add then
    let new_values :=
      if prepend then value :: current_values else current_values ++ [value]
    envSet env varName (pathJoin new_values)
  else env

/-- A file system (paths to text contents, used for the dump files and JSON
artifacts the runner touches). -/
abbrev FileSys : Type := List (String × String)

/-- `Path(p).is_file()`. -/
def fileExists (files : FileSys) (p : String) : Bool :=
  files.any (fun q => decide (q.1 = p))

/-- The content of the file at `p`, if any. -/
def fileLookup : FileSys → String → Option String
  | [], _ => none
  | q :: t, p => if q.1 = p then some q.2 else fileLookup t p

/-- `Path(p).open("w")` + write: create or truncate the file at `p`
(update the existing entry in place, else append). -/
def writeFile : FileSys → String → String → FileSys
  | [], p, c => [(p, c)]
  | q :: t, p, c => if q.1 = p then (p, c) :: t else q :: writeFile t p c

/-- `Path(p).unlink(missing_ok=True)`. -/
def removeFile : FileSys → String → FileSys
  | [], _ => []
  | q :: t, p => if q.1 = p then removeFile t p else q :: removeFile t p

/-- Model of `opi.utils.misc.delete_empty_file`: delete the file at `p` when
it exists and is empty (size of a text file is zero iff its content is the
empty string). -/
def delete_empty_file (p : String) (files : FileSys) : FileSys :=
  match fileLookup files p with
  | some c => if c = "" then removeFile files p else files
  | none => files

/-- One operating-system process invocation (`subprocess.run`): the command
line, the stdin text, the timeout actually passed (`None` waits forever),
the working directory, and the environment the child inherits. -/
structure ProcCall where
  cmd : List String
  stdinStr : Option String
  timeout : Option Int
  cwd : String
  env : Env
deriving DecidableEq, Repr

/-- The black-box outcome of a process invocation: normal completion or
`subprocess.TimeoutExpired`; either way the texts written to the stdout and
stderr streams are recorded. -/
inductive ProcOut where
  | completed (outText errText : String) (exitCode : Int) : ProcOut
  | timedOut (outText errText : String) : ProcOut
deriving DecidableEq, Repr

/-- The text the process wrote to stdout. -/
def ProcOut.outText : ProcOut → String
  | .completed o _ _ => o
  | .timedOut o _ => o

/-- The text the process wrote to stderr. -/
def ProcOut.errText : ProcOut → String
  | .completed _ e _ => e
  | .timedOut _ e => e

/-- The `BaseRunner` configuration after `__init__`: the resolved ORCA
`bin/` and `lib/` folders, the optional Open MPI folder, the working
directory, and the set of binary files present on disk (for
`get_orca_binary`'s `is_file` check). -/
structure RunnerCfg where
  orcaBinFolder : String
  orcaLibFolder : String
  openMpiPath : Option String
  workingDir : String
  binaries : List String
deriving DecidableEq, Repr

/-- The mutable world a `run` call touches: the process environment, the
file system, and the log of processes started so far. -/
structure World where
  env : Env
  files : FileSys
  calls : List ProcCall
deriving DecidableEq, Repr

/-- The environment modifications of the `_orca_environment` decorator:
prepend the ORCA `bin/` folder to `PATH` and the ORCA `lib/` folder to
`LD_LIBRARY_PATH`, then, when an Open MPI path is set, prepend its `bin/`
and `lib/` subfolders likewise. -/
def orcaSetupEnv (cfg : RunnerCfg) (env : Env) : Env :=
  let env1 := add_to_env "PATH" cfg.orcaBinFolder true env
  let env2 := add_to_env "LD_LIBRARY_PATH" cfg.orcaLibFolder true env1
  match cfg.openMpiPath with
  | some mp =>
    add_to_env "LD_LIBRARY_PATH" (mp ++ "/lib") true
      (add_to_env "PATH" (mp ++ "/bin") true env2)
  | none => env2

/-- Model of the `_orca_environment` decorator around `BaseRunner.run`:
snapshot `os.environ`, apply the modifications, run the body, and — in a
`finally`, so on normal return and on exception alike — restore the
snapshot. -/
def _orca_environment (cfg : RunnerCfg)
    (body : World → Except PyErr Unit × World) (w : World) :
    Except PyErr Unit × World :=
  let org := w.env
  let res := body { w with env := orcaSetupEnv cfg w.env }
  (res.1, { res.2 with env := org })

/-- The `subprocess.run` call `BaseRunner.run` assembles: the resolved
binary path followed by the arguments, the optional stdin text, a finite
timeout exactly when the `timeout` argument is positive, the working
directory (the runner's unless overridden), and the inherited environment. -/
def theCall (cfg : RunnerCfg) (binary : OrcaBinary) (args : List String)
    (stdinStr : Option String) (cwd : Option String) (timeout : Int)
    (env : Env) : ProcCall :=
  { cmd := (cfg.orcaBinFolder ++ "/" ++ binName binary) :: args,
    stdinStr := stdinStr,
    timeout := if timeout > 0 then some timeout else none,
    cwd := cwd.getD cfg.workingDir,
    env := env }

/-- The body of `BaseRunner.run` (inside the decorator): check that the
requested binary exists (`get_orca_binary`, raising `FileNotFoundError`
before any dump file is opened), open the stdout/stderr dump files (`"w"`
truncates or creates), run the process via the black-box `subproc`, record
the texts it wrote to the dumps, and — in a `finally` — delete the dump
files that stayed empty.  A `subprocess.TimeoutExpired` outcome is re-raised
unchanged.  `silent` and `capture` only select the null device or a pipe for
streams without a dump path and do not touch the world. -/
def runBody (subproc : ProcCall → ProcOut) (cfg : RunnerCfg)
    (binary : OrcaBinary) (args : List String) (stdinStr : Option String)
    (stdout stderr : Option String) (_silent _capture : Bool)
    (cwd : Option String) (timeout : Int) (w : World) :
    Except PyErr Unit × World :=
  let binPath := cfg.orcaBinFolder ++ "/" ++ binName binary
  if ¬ cfg.binaries.any (fun q => decide (q = binPath)) then (.error .fileNotFoundErr, w)
  else
    let files1 := match stdout with | some p => writeFile w.files p "" | none => w.files
    let files2 := match stderr with | some p => writeFile files1 p "" | none => files1
    let call := theCall cfg binary args stdinStr cwd timeout w.env
    let out := subproc call
    let files3 := match stdout with
      | some p => writeFile files2 p out.outText
      | none => files2
    let files4 := match stderr with
      | some p => writeFile files3 p out.errText
      | none => files3
    let files5 := match stdout with | some p => delete_empty_file p files4 | none => files4
    let files6 := match stderr with | some p => delete_empty_file p files5 | none => files5
    let w2 : World := { env := w.env, files := files6, calls := w.calls ++ [call] }
    ((match out with
      | .timedOut _ _ => .error .timeoutExpired
      | .completed _ _ _ => .ok ()), w2)

/-- Model of `BaseRunner.run`: the body wrapped in `_orca_environment`. -/
def run (subproc : ProcCall → ProcOut) (cfg : RunnerCfg)
    (binary : OrcaBinary) (args : List String) (stdinStr : Option String)
    (stdout stderr : Option String) (silent capture : Bool)
    (cwd : Option String) (timeout : Int) : World → Except PyErr Unit × World :=
  _orca_environment cfg
    (runBody subproc cfg binary args stdinStr stdout stderr silent capture cwd timeout)

/-- The state `Runner.create_property_json` / `create_gbw_json` act on: the
file system and the log of `orca_2json` invocations (the conversion helper
is an external binary; what it writes is outside this model). -/
structure JsonState where
  files : FileSys
  jsonCalls : List (List String)
deriving DecidableEq, Repr

/-- Model of `Runner.run_orca_2json`: invoke the conversion helper with the
given arguments. -/
def run_orca_2json (args : List String) (st : JsonState) : JsonState :=
  { st with jsonCalls := st.jsonCalls ++ [args] }

/-- Model of `Runner.create_property_json`: if `<basename>.property.json`
exists and `force` is not set, do nothing; otherwise delete any existing
file and invoke `orca_2json basename -property`. -/
def create_property_json (basename : String) (force : Bool) (st : JsonState) :
    JsonState :=
  let pj := basename ++ ".property.json"
  if fileExists st.files pj && !force then st
  else run_orca_2json [basename, "-property"] { st with files := removeFile st.files pj }

/-- Model of `Runner.format_gbw_json_config`: `""` for a falsy config,
otherwise the `json.dumps` rendering (taken as given, since the config dict
itself is opaque data here). -/
def format_gbw_json_config (config : Option String) : String :=
  match config with
  | none => ""
  | some s => s

/-- Model of `Runner.create_gbw_json`: if `<working_dir>/<basename>.json`
exists and `force` is not set, do nothing; otherwise delete any existing
JSON file and `.json.conf` file, write the config file when a non-empty
config rendering is given, and invoke `orca_2json` on
`<working_dir>/<basename><suffix>`. -/
def create_gbw_json (workingDir basename : String) (force : Bool)
    (config : Option String) (suffix : String) (st : JsonState) : JsonState :=
  let gbwJson := workingDir ++ "/" ++ basename ++ ".json"
  let confFile := workingDir ++ "/" ++ basename ++ ".json.conf"
  if fileExists st.files gbwJson && !force then st
  else
    let files1 := removeFile (removeFile st.files gbwJson) confFile
    let files2 :=
      if format_gbw_json_config config = "" then files1
      else writeFile files1 confFile (format_gbw_json_config config)
    run_orca_2json [workingDir ++ "/" ++ basename ++ suffix] { st with files := files2 }

/-- Truthiness of an optional string (`None` and `""` are falsy), as used by
the walrus conditions of `BaseRunner.set_orca_path`. -/
def truthyStr : Option String → Option String
  | some s => if s = "" then none else some s
  | none => none

/-- Model of the resolution order of `BaseRunner.set_orca_path`: an explicit
`orca_path` argument wins; otherwise the `OPI_ORCA` environment variable
(when set and non-empty); otherwise the `ORCA_PATH` entry of the OPI config
file (when present and non-empty); otherwise `shutil.which("orca")`; when
none applies, `RuntimeError`.  The chosen path is then handed to
`_determine_orca_paths`, whose file-system validation is outside this
selection model. -/
def set_orca_path_choice (argPath : Option String) (envOpiOrca : Option String)
    (configOrcaPath : Option String) (whichOrca : Option String) :
    Except PyErr String :=
  match argPath with
  | some p => .ok p
  | none =>
    match truthyStr envOpiOrca with
    | some p => .ok p
    | none =>
      match truthyStr configOrcaPath with
      | some p => .ok p
      | none =>
        match whichOrca with
        | some p => .ok p
        | none => .error .runtimeErr

/-- A Python value, as far as the `Calculator.basename` setter inspects it
(a string or some non-string value). -/
inductive PyVal where
  | pstr : String → PyVal
  | pint : Int → PyVal
  | pfloat : Rat → PyVal
  | pnone : PyVal
deriving DecidableEq, Repr

/-- Model of the `Calculator.basename` setter: `TypeError` for non-strings,
`ValueError` for strings containing a space and for the empty string,
otherwise the value is stored. -/
def basename_setter (value : PyVal) : Except PyErr String :=
  match value with
  | .pstr s =>
    if s.toList.contains ' ' then .error .valueErr
    else if s = "" then .error .valueErr
    else .ok s
  | _ => .error .typeErr

/-- Model of the `Calculator.basename` getter: `ValueError` when nothing is
stored (the empty string), otherwise the stored value. -/
def basename_getter (cur : String) : Except PyErr String :=
  if cur = "" then .error .valueErr else .ok cur

/-- The file-system facts the `working_dir` setter consults: the current
working directory, the directory predicate (`Path.is_dir`), and the
`expanduser` / `resolve` path normalizations (OS services, taken as
given). -/
structure FsInfo where
  cwd : String
  isDirF : String → Bool
  expanduserF : String → String
  resolveF : String → String

/-- Model of the `working_dir` setter shared verbatim by `Calculator` and
`BaseRunner`: `None` resets to the current working directory; a
non-directory raises `ValueError`; an existing directory is stored
user-expanded and fully resolved. -/
def working_dir_setter (fs : FsInfo) (value : Option String) :
    Except PyErr String :=
  match value with
  | none => .ok fs.cwd
  | some v =>
    if fs.isDirF v then .ok (fs.resolveF (fs.expanduserF v))
    else .error .valueErr

/-- One assignment to `working_dir` on an object whose current value is
`cur`: on error the attribute keeps its previous value (the raise precedes
the assignment). -/
def working_dir_update (fs : FsInfo) (value : Option String) (cur : String) :
    Except PyErr Unit × String :=
  match working_dir_setter fs value with
  | .ok nw => (.ok (), nw)
  | .error e => (.error e, cur)

/-- `__init__`: `self._working_dir = Path.cwd()` followed by the setter on
the `working_dir` argument. -/
def working_dir_init (fs : FsInfo) (value : Option String) :
    Except PyErr Unit × String :=
  working_dir_update fs value fs.cwd

theorem dropLast_getLast_cons {α : Type} (l r : List α) (h : l ≠ []) :
    l.dropLast ++ (l.getLast h :: r) = l ++ r := by
  rw [← List.singleton_append, ← List.append_assoc, List.dropLast_append_getLast]

theorem expCont_append {cs e rest : List Char} (h : expCont cs = some (e, rest)) :
    e ++ rest = cs := by
  match cs with
  | [] =>
    simp only [expCont, Option.some.injEq, Prod.mk.injEq] at h
    rw [← h.1, ← h.2]
    rfl
  | c :: rest1 =>
    simp only [expCont] at h
    split at h
    · split at h
      · exact absurd h (by simp)
      · split at h
        · rw [Option.some.injEq, Prod.mk.injEq] at h
          rw [← h.1, ← h.2, List.cons_append, List.append_assoc,
            List.takeWhile_append_dropWhile, optSign_append]
        · split at h
          · rw [Option.some.injEq, Prod.mk.injEq] at h
            rw [← h.1, ← h.2, List.cons_append, List.append_assoc,
              dropLast_getLast_cons, List.takeWhile_append_dropWhile, optSign_append]
          · exact absurd h (by simp)
    · split at h
      · exact absurd h (by simp)
      · rw [Option.some.injEq, Prod.mk.injEq] at h
        rw [← h.1, ← h.2]
        rfl

theorem numBodyAux_spec {d1 r1 m rest : List Char}
    (h : numBodyAux d1 r1 = some (m, rest)) : m ++ rest = d1 ++ r1 ∧ m ≠ [] := by
  simp only [numBodyAux] at h
  split at h
  · rename_i hd1
    subst hd1
    split at h
    · rename_i r2
      split at h
      · exact absurd h (by simp)
      · split at h
        · rename_i heq
          rw [Option.some.injEq, Prod.mk.injEq] at h
          refine ⟨?_, by rw [← h.1]; simp⟩
          rw [← h.1, ← h.2, List.cons_append, List.append_assoc, expCont_append heq,
            List.takeWhile_append_dropWhile, List.nil_append]
        · split at h
          · rw [Option.some.injEq, Prod.mk.injEq] at h
            refine ⟨?_, by rw [← h.1]; simp⟩
            rw [← h.1, ← h.2, List.cons_append, dropLast_getLast_cons,
              List.takeWhile_append_dropWhile, List.nil_append]
          · exact absurd h (by simp)
    · exact absurd h (by simp)
  · rename_i hd1
    split at h
    · rename_i r2
      split at h
      · rename_i heq
        rw [Option.some.injEq, Prod.mk.injEq] at h
        refine ⟨?_, by rw [← h.1]; simp [hd1]⟩
        rw [← h.1, ← h.2, List.append_assoc, List.cons_append, List.append_assoc,
          expCont_append heq, List.takeWhile_append_dropWhile]
      · split at h
        · rw [Option.some.injEq, Prod.mk.injEq] at h
          exact ⟨by rw [← h.1, ← h.2], by rw [← h.1]; exact hd1⟩
        · rw [Option.some.injEq, Prod.mk.injEq] at h
          refine ⟨?_, by rw [← h.1]; simp [hd1]⟩
          rw [← h.1, ← h.2, List.append_assoc, List.cons_append, dropLast_getLast_cons,
            List.takeWhile_append_dropWhile]
    · split at h
      · rename_i heq
        rw [Option.some.injEq, Prod.mk.injEq] at h
        refine ⟨?_, by rw [← h.1]; simp [hd1]⟩
        rw [← h.1, ← h.2, List.append_assoc, expCont_append heq]
      · split at h
        · rename_i hlen
          rw [Option.some.injEq, Prod.mk.injEq] at h
          refine ⟨?_, ?_⟩
          · rw [← h.1, ← h.2, dropLast_getLast_cons]
          · rw [← h.1]
            have : d1.dropLast.length = d1.length - 1 := List.length_dropLast d1
            intro hnil
            rw [hnil] at this
            simp at this
            omega
        · exact absurd h (by simp)

theorem numBody_spec {cs m rest : List Char}
    (h : numBody cs = some (m, rest)) : m ++ rest = cs ∧ m ≠ [] := by
  have := numBodyAux_spec h
  rwa [List.takeWhile_append_dropWhile] at this

theorem matchNum_spec {prev : Option Char} {cs m rest : List Char}
    (h : matchNum prev cs = some (m, rest)) : m ++ rest = cs ∧ m ≠ [] := by
  simp only [matchNum] at h
  split at h
  · exact absurd h (by simp)
  · split at h
    · split at h
      · split at h
        · rename_i heq
          rw [Option.some.injEq, Prod.mk.injEq] at h
          have hs := numBody_spec heq
          refine ⟨?_, by rw [← h.1]; simp⟩
          rw [← h.1, ← h.2, List.cons_append, hs.1]
        · exact absurd h (by simp)
      · exact numBody_spec h
    · exact absurd h (by simp)

theorem matchNum_rest_lt {prev : Option Char} {cs m rest : List Char}
    (h : matchNum prev cs = some (m, rest)) : rest.length < cs.length := by
  obtain ⟨happ, hne⟩ := matchNum_spec h
  have : m.length + rest.length = cs.length := by
    rw [← happ, List.length_append]
  have : 0 < m.length := List.length_pos.mpr hne
  omega

/-- The scan does not depend on the fuel once the fuel exceeds the input
length, confirming that `fuel = cs.length + 1` models the unbounded Python
scan. -/
theorem scanNums_fuel_irrel {f : Nat} : ∀ {g : Nat} {prev : Option Char}
    {cs : List Char}, cs.length < f → cs.length < g →
    scanNums f prev cs = scanNums g prev cs := by
  induction f with
  | zero => intro g prev cs hf; omega
  | succ f ih =>
    intro g prev cs hf hg
    match g, hg with
    | g + 1, hg =>
      match hm : matchNum prev cs with
      | some (m, rest) =>
        have hlt := matchNum_rest_lt hm
        simp only [scanNums, hm]
        rw [ih (g := g) (by omega) (by omega)]
      | none =>
        match cs with
        | [] => simp [scanNums, hm]
        | c :: rest =>
          simp only [scanNums, hm]
          simp only [List.length_cons] at hf hg
          rw [ih (g := g) (by omega) (by omega)]

theorem skipJunk_rest_lt {cts : Option (List String)} {lines : List String}
    {hd : String} {rest : List String} (h : skipJunk cts lines = some (hd, rest)) :
    rest.length < lines.length := by
  induction lines with
  | nil => simp [skipJunk] at h
  | cons l ls ih =>
    simp only [skipJunk] at h
    split at h
    · have := ih h
      simp only [List.length_cons]
      omega
    · split at h
      · have := ih h
        simp only [List.length_cons]
        omega
      · rw [Option.some.injEq, Prod.mk.injEq] at h
        rw [← h.2]
        simp

theorem from_xyz_buffer_rest_lt {cts : Option (List String)} {mode : XyzMode}
    {lines : List String} {p : Properties} {rest : List String}
    (h : from_xyz_buffer cts mode lines = .ok (p, rest)) :
    rest.length < lines.length := by
  simp only [from_xyz_buffer] at h
  split at h
  · exact absurd h (by simp)
  · rename_i header r1 hskip
    split at h
    · exact absurd h (by simp)
    · split at h
      · exact absurd h (by simp)
      · split at h
        · exact absurd h (by simp)
        · split at h
          · exact absurd h (by simp)
          · split at h
            · exact absurd h (by simp)
            · rw [Except.ok.injEq, Prod.mk.injEq] at h
              rw [← h.2]
              have hr1 := skipJunk_rest_lt hskip
              simp only [List.length_cons] at hr1
              simp only [List.length_drop]
              omega

/-- The generator loop does not depend on the fuel once the fuel exceeds the
number of buffer lines, confirming that `fuel = lines.length + 1` models the
unbounded Python loop. -/
theorem iterGo_fuel_irrel {cts : Option (List String)} {mode : XyzMode}
    {limit : Option Int} {f : Nat} : ∀ {g : Nat} {nstruc : Int}
    {lines : List String}, lines.length < f → lines.length < g →
    iterGo cts mode limit f nstruc lines = iterGo cts mode limit g nstruc lines := by
  induction f with
  | zero => intro g nstruc lines hf; omega
  | succ f ih =>
    intro g nstruc lines hf hg
    match g, hg with
    | g + 1, hg =>
      match hb : from_xyz_buffer cts mode lines with
      | .error .eofErr => simp [iterGo, hb]
      | .error .valueErr => simp [iterGo, hb]
      | .error .fileNotFoundErr => simp [iterGo, hb]
      | .error .typeErr => simp [iterGo, hb]
      | .error .runtimeErr => simp [iterGo, hb]
      | .error .timeoutExpired => simp [iterGo, hb]
      | .ok (p, rest) =>
        have hlt := from_xyz_buffer_rest_lt hb
        simp only [iterGo, hb]
        rw [ih (g := g) (by omega) (by omega)]

theorem skipJunk_skips {cts : Option (List String)} {junk : List String}
    (rest : List String)
    (hj : ∀ l ∈ junk, (pyLstrip l).isEmpty = true ∨ isCommentLine cts l = true) :
    skipJunk cts (junk ++ rest) = skipJunk cts rest := by
  induction junk with
  | nil => rfl
  | cons l ls ih =>
    have hl := hj l (by simp)
    have hls : ∀ x ∈ ls, (pyLstrip x).isEmpty = true ∨ isCommentLine cts x = true :=
      fun x hx => hj x (by simp [hx])
    simp only [List.cons_append, skipJunk]
    rcases hl with hl | hl
    · rw [if_pos hl]
      exact ih hls
    · by_cases hb : (pyLstrip l).isEmpty = true
      · rw [if_pos hb]
        exact ih hls
      · rw [if_neg hb, if_pos hl]
        exact ih hls

/-- Parsing one well-formed block from the front of the buffer succeeds,
returns the comment line's properties and consumes exactly the block. -/
theorem from_xyz_buffer_block {cts : Option (List String)} {mode : XyzMode}
    {b : XYZBlock} (rest : List String) (hw : wellFormedBlock cts mode b = true) :
    from_xyz_buffer cts mode (b.toLines ++ rest) = .ok (propsOfBlock mode b, rest) := by
  simp only [wellFormedBlock, Bool.and_eq_true, List.all_eq_true] at hw
  obtain ⟨⟨⟨⟨hjunk, hhead⟩, hhc⟩, htok⟩, hmode⟩ := hw
  have hjunk2 : ∀ l ∈ b.junk, (pyLstrip l).isEmpty = true ∨ isCommentLine cts l = true := by
    intro l hl
    have := hjunk l hl
    rcases Bool.or_eq_true_iff.mp this with h | h
    · exact Or.inl h
    · exact Or.inr h
  have hskip : skipJunk cts (b.toLines ++ rest) =
      some (b.header, b.comment :: (b.atoms ++ rest)) := by
    rw [XYZBlock.toLines, List.append_assoc, skipJunk_skips _ hjunk2]
    simp only [List.cons_append, skipJunk]
    rw [if_neg (by simp [Bool.not_eq_true] at hhead ⊢; exact hhead),
      if_neg (by simp [Bool.not_eq_true] at hhc ⊢; exact hhc)]
    rfl
  match hh : (pySplit b.header).head? with
  | none => rw [hh] at htok; exact absurd htok (by simp)
  | some tok =>
    rw [hh] at htok
    simp only [decide_eq_true_eq] at htok
    match hm : modeFun mode b.comment with
    | .error e => rw [hm] at hmode; simp [Except.isOk, Except.toBool] at hmode
    | .ok p =>
      have hlen : ¬(b.atoms ++ rest).length < b.atoms.length := by
        simp [List.length_append]
      have hdrop : (b.atoms ++ rest).drop b.atoms.length = rest :=
        List.drop_left b.atoms rest
      simp only [from_xyz_buffer, hskip, hh, htok, hm, propsOfBlock,
        Int.toNat_natCast]
      rw [if_neg hlen, hdrop]

theorem from_xyz_buffer_nil {cts : Option (List String)} {mode : XyzMode} :
    from_xyz_buffer cts mode (blocksLines []) = .error .eofErr := by
  simp [blocksLines, from_xyz_buffer, skipJunk]

theorem from_xyz_buffer_cons {cts : Option (List String)} {mode : XyzMode}
    (b : XYZBlock) (bs : List XYZBlock)
    (hwb : wellFormedBlock cts mode b = true) :
    from_xyz_buffer cts mode (blocksLines (b :: bs)) =
      .ok (propsOfBlock mode b, blocksLines bs) := by
  have : blocksLines (b :: bs) = b.toLines ++ blocksLines bs := by
    simp [blocksLines]
  rw [this]
  exact from_xyz_buffer_block _ hwb

/-- With no structure limit, the generator yields one `Properties` per
well-formed block, in file order. -/
theorem iterGo_no_limit {cts : Option (List String)} {mode : XyzMode}
    (bs : List XYZBlock) (fuel : Nat) (n : Int)
    (hf : (blocksLines bs).length < fuel)
    (hw : ∀ b ∈ bs, wellFormedBlock cts mode b = true) :
    iterGo cts mode none fuel n (blocksLines bs) =
      .ok (bs.map (propsOfBlock mode)) := by
  induction bs generalizing n fuel with
  | nil =>
    match fuel, hf with
    | fuel + 1, _ =>
      simp only [iterGo]
      split
      · rfl
      · rename_i e hcon heq
        rw [from_xyz_buffer_nil] at heq
        injection heq with h2
        exact absurd h2.symm hcon
      · rename_i p rest heq
        rw [from_xyz_buffer_nil] at heq
        exact absurd heq (by simp)
  | cons b bs ih =>
    match fuel, hf with
    | fuel + 1, hf =>
      have hb := from_xyz_buffer_cons b bs (hw b (by simp))
      have hlt := from_xyz_buffer_rest_lt hb
      simp only [iterGo]
      split
      · rename_i heq
        rw [hb] at heq
        exact absurd heq (by simp)
      · rename_i e hcon heq
        rw [hb] at heq
        exact absurd heq (by simp)
      · rename_i p rest heq
        rw [hb] at heq
        rw [Except.ok.injEq, Prod.mk.injEq] at heq
        obtain ⟨hp, hr⟩ := heq
        subst hr
        rw [ih fuel (n + 1) (by omega) (fun x hx => hw x (by simp [hx]))]
        simp [hp]

/-- With a positive limit `m` and `n` structures already yielded (`n < m`),
the generator yields the properties of the first `m - n` blocks. -/
theorem iterGo_limit {cts : Option (List String)} {mode : XyzMode}
    (bs : List XYZBlock) (m : Int) (fuel : Nat) (n : Int)
    (hf : (blocksLines bs).length < fuel) (hm : 0 ≤ n) (hnm : n < m)
    (hw : ∀ b ∈ bs, wellFormedBlock cts mode b = true) :
    iterGo cts mode (some m) fuel n (blocksLines bs) =
      .ok ((bs.take (m - n).toNat).map (propsOfBlock mode)) := by
  induction bs generalizing n fuel with
  | nil =>
    match fuel, hf with
    | fuel + 1, _ =>
      simp only [iterGo]
      split
      · simp
      · rename_i e hcon heq
        rw [from_xyz_buffer_nil] at heq
        injection heq with h2
        exact absurd h2.symm hcon
      · rename_i p rest heq
        rw [from_xyz_buffer_nil] at heq
        exact absurd heq (by simp)
  | cons b bs ih =>
    match fuel, hf with
    | fuel + 1, hf =>
      have hb := from_xyz_buffer_cons b bs (hw b (by simp))
      have hlt := from_xyz_buffer_rest_lt hb
      simp only [iterGo]
      split
      · rename_i heq
        rw [hb] at heq
        exact absurd heq (by simp)
      · rename_i e hcon heq
        rw [hb] at heq
        exact absurd heq (by simp)
      · rename_i p rest heq
        rw [hb] at heq
        rw [Except.ok.injEq, Prod.mk.injEq] at heq
        obtain ⟨hp, hr⟩ := heq
        subst hr
        by_cases hstop : n + 1 ≥ m
        · rw [if_pos (by simp only [decide_eq_true_eq]; exact ⟨by omega, by omega⟩)]
          have h1 : (m - n).toNat = 1 := by omega
          rw [h1]
          simp [hp]
        · rw [if_neg (by simp only [decide_eq_true_eq]; omega)]
          rw [ih fuel (n + 1) (by omega) (by omega) (by omega)
            (fun x hx => hw x (by simp [hx]))]
          have h1 : (m - n).toNat = (m - (n + 1)).toNat + 1 := by omega
          rw [h1]
          simp [hp]

/-- Claim C1, as written, is false on the code: a GOAT comment line that
does contain a second (relative-energy) number still yields a `Properties`
whose `energy_relative` is `None` — `goat_energies` stores only the first
number as the total energy. -/
theorem goat_energies_no_relative_counterexample :
    findNumbers "E -12.5 0.75" = ["-12.5", "0.75"] ∧
    goat_energies "E -12.5 0.75" =
      .ok { structure_id := none, energy_total := some (mkRat (-25) 2),
            energy_relative := none } := by
  decide

/-- Claim C1 (amended): a GOAT-mode parse of a comment line stores the first
extracted number as the total energy and leaves both the relative energy and
the structure id unset; a DOCKER-mode parse stores the first three extracted
numbers as structure id (truncated to `int`), total energy and relative
energy. -/
theorem goat_docker_energy_extraction :
    (∀ line n0 ns, findNumbers line = n0 :: ns →
      goat_energies line =
        .ok { structure_id := none, energy_total := some (ratOfLit n0),
              energy_relative := none }) ∧
    (∀ line n0 n1 n2 ns, findNumbers line = n0 :: n1 :: n2 :: ns →
      docker_energies line =
        .ok { structure_id := some (pyIntOfRat (ratOfLit n0)),
              energy_total := some (ratOfLit n1),
              energy_relative := some (ratOfLit n2) }) := by
  constructor
  · intro line n0 ns h
    rw [goat_energies, h]
  · intro line n0 n1 n2 ns h
    rw [docker_energies, h]

/-- Witness for `goat_docker_energy_extraction` at concrete comment lines. -/
theorem goat_docker_energy_extraction_witness :
    goat_energies "  -154.02  #Cluster: 0" =
      .ok { structure_id := none, energy_total := some (mkRat (-7701) 50),
            energy_relative := none } ∧
    docker_energies "STRUCTURE 5 E -3.25 1.5" =
      .ok { structure_id := some 5, energy_total := some (mkRat (-13) 4),
            energy_relative := some (mkRat 3 2) } := by
  constructor
  · exact (goat_docker_energy_extraction.1 "  -154.02  #Cluster: 0"
      "-154.02" ["0"] (by decide)).trans (by decide)
  · exact (goat_docker_energy_extraction.2 "STRUCTURE 5 E -3.25 1.5"
      "5" "-3.25" "1.5" [] (by decide)).trans (by decide)

/-- Claim C2, as written, fails for `K = 0`: on a trajectory text with no
XYZ blocks (the empty string) the parser raises `EOFError` instead of
returning an empty list. -/
theorem trajectory_counts_zero_counterexample :
    blocksLines ([] : List XYZBlock) = [] ∧
    from_trj_xyz_blockL XyzMode.goat none none [] = .error PyErr.eofErr ∧
    from_trj_xyz_block XyzMode.goat none none "" = .error PyErr.eofErr := by
  decide

/-- Claim C2 (amended to `K ≥ 1`): a trajectory of `K ≥ 1` well-formed XYZ
blocks parses, with no structure limit, to exactly the `K` per-block
properties in file order; with a positive limit `M` it parses to the
properties of the first `min M K` blocks. -/
theorem trajectory_block_counts (bs : List XYZBlock) (cts : Option (List String))
    (mode : XyzMode) (hne : bs ≠ [])
    (hw : ∀ b ∈ bs, wellFormedBlock cts mode b = true) :
    (from_trj_xyz_blockL mode cts none (blocksLines bs) =
        .ok (bs.map (propsOfBlock mode)) ∧
      (bs.map (propsOfBlock mode)).length = bs.length) ∧
    ∀ m : Int, 0 < m →
      from_trj_xyz_blockL mode cts (some m) (blocksLines bs) =
        .ok ((bs.take m.toNat).map (propsOfBlock mode)) ∧
      ((bs.take m.toNat).map (propsOfBlock mode)).length = min m.toNat bs.length := by
  obtain ⟨b, bs', rfl⟩ : ∃ b bs', bs = b :: bs' := by
    cases bs with
    | nil => exact absurd rfl hne
    | cons b t => exact ⟨b, t, rfl⟩
  constructor
  · have h1 := iterGo_no_limit (b :: bs') ((blocksLines (b :: bs')).length + 1) 0
      (by omega) hw
    constructor
    · rw [from_trj_xyz_blockL, _iter_xyz_structures, h1]
      simp
    · simp
  · intro m hm
    have h2 := iterGo_limit (b :: bs') m ((blocksLines (b :: bs')).length + 1) 0
      (by omega) (by omega) hm hw
    obtain ⟨k, hk⟩ : ∃ k, m.toNat = k + 1 := ⟨m.toNat - 1, by omega⟩
    constructor
    · rw [from_trj_xyz_blockL, _iter_xyz_structures, if_neg (by omega)]
      rw [show m - 0 = m by ring] at h2
      rw [h2, hk]
      simp
    · simp [hk, Nat.succ_min_succ]

/-- Witness for `trajectory_block_counts`: a two-block GOAT trajectory
yields both properties without a limit and only the first with limit 1. -/
theorem trajectory_block_counts_witness :
    from_trj_xyz_blockL XyzMode.goat none none
      (blocksLines [⟨[], "1", "E -1.5", ["H 0 0 0"]⟩,
        ⟨[], "1", "E -2.5", ["H 0 0 0"]⟩]) =
      .ok [{ energy_total := some (mkRat (-3) 2) },
        { energy_total := some (mkRat (-5) 2) }] ∧
    from_trj_xyz_blockL XyzMode.goat none (some 1)
      (blocksLines [⟨[], "1", "E -1.5", ["H 0 0 0"]⟩,
        ⟨[], "1", "E -2.5", ["H 0 0 0"]⟩]) =
      .ok [{ energy_total := some (mkRat (-3) 2) }] := by
  have h := trajectory_block_counts
    [⟨[], "1", "E -1.5", ["H 0 0 0"]⟩, ⟨[], "1", "E -2.5", ["H 0 0 0"]⟩]
    none XyzMode.goat (by simp) (by decide)
  exact ⟨h.1.1.trans (by decide), ((h.2 1 (by decide)).1).trans (by decide)⟩

/-- Claim C3: empty input (file, string, or buffer) raises `EOFError`; a
header whose first token is not an integer raises `ValueError`; a declared
atom count exceeding the remaining atom lines raises `ValueError`; a missing
file raises `FileNotFoundError`.  (The empty-input statements use a valid
structure limit — `None` or positive — since an invalid limit is rejected
with `ValueError` before any input is read.) -/
theorem properties_error_classes :
    (∀ cts mode, from_xyz_buffer cts mode [] = .error PyErr.eofErr) ∧
    (∀ mode cts limit, (limit = none ∨ ∃ m : Int, limit = some m ∧ 0 < m) →
      from_trj_xyz_block mode cts limit "" = .error PyErr.eofErr) ∧
    (∀ mode cts limit, (limit = none ∨ ∃ m : Int, limit = some m ∧ 0 < m) →
      from_trj_xyz mode cts limit (some "") = .error PyErr.eofErr) ∧
    (∀ cts mode lines header r1 tok,
      skipJunk cts lines = some (header, r1) →
      (pySplit header).head? = some tok →
      pyInt tok = none →
      from_xyz_buffer cts mode lines = .error PyErr.valueErr) ∧
    (∀ cts mode lines header comment r2 tok n p,
      skipJunk cts lines = some (header, comment :: r2) →
      (pySplit header).head? = some tok →
      pyInt tok = some n →
      modeFun mode comment = .ok p →
      r2.length < n.toNat →
      from_xyz_buffer cts mode lines = .error PyErr.valueErr) ∧
    (∀ mode cts limit, from_trj_xyz mode cts limit none = .error PyErr.fileNotFoundErr) := by
  refine ⟨?_, ?_, ?_, ?_, ?_, ?_⟩
  · intro cts mode
    rfl
  · intro mode cts limit hl
    rcases hl with rfl | ⟨m, rfl, hm⟩
    · rfl
    · rw [from_trj_xyz_block, from_trj_xyz_blockL, _iter_xyz_structures,
        if_neg (by omega)]
      rfl
  · intro mode cts limit hl
    rcases hl with rfl | ⟨m, rfl, hm⟩
    · rfl
    · rw [from_trj_xyz, from_trj_xyz_block, from_trj_xyz_blockL, _iter_xyz_structures,
        if_neg (by omega)]
      rfl
  · intro cts mode lines header r1 tok hskip htok hint
    simp only [from_xyz_buffer, hskip, htok, hint]
  · intro cts mode lines header comment r2 tok n p hskip htok hint hmode hlen
    simp only [from_xyz_buffer, hskip, htok, hint, hmode]
    rw [if_pos hlen]
  · intro mode cts limit
    rfl

/-- Witness for `properties_error_classes` at concrete inputs. -/
theorem properties_error_classes_witness :
    from_trj_xyz_block XyzMode.goat none (some 2) "" = .error PyErr.eofErr ∧
    from_xyz_buffer none XyzMode.goat ["abc atoms", "E -1.5"] = .error PyErr.valueErr ∧
    from_xyz_buffer none XyzMode.goat ["5", "E -1.5", "H 0 0 0"] = .error PyErr.valueErr ∧
    from_trj_xyz XyzMode.docker (some ["#"]) (some 3) none = .error PyErr.fileNotFoundErr := by
  refine ⟨?_, ?_, ?_, ?_⟩
  · exact properties_error_classes.2.1 XyzMode.goat none (some 2)
      (Or.inr ⟨2, rfl, by omega⟩)
  · exact properties_error_classes.2.2.2.1 none XyzMode.goat
      ["abc atoms", "E -1.5"] "abc atoms" ["E -1.5"] "abc" (by decide) (by decide)
      (by decide)
  · exact properties_error_classes.2.2.2.2.1 none XyzMode.goat
      ["5", "E -1.5", "H 0 0 0"] "5" "E -1.5" ["H 0 0 0"] "5" 5
      { energy_total := some (mkRat (-3) 2) } (by decide) (by decide) (by decide)
      (by decide) (by decide)
  · exact properties_error_classes.2.2.2.2.2 XyzMode.docker (some ["#"]) (some 3)

theorem fileLookup_writeFile_same (fs : FileSys) (p c : String) :
    fileLookup (writeFile fs p c) p = some c := by
  induction fs with
  | nil => simp [writeFile, fileLookup]
  | cons q t ih =>
    by_cases h : q.1 = p
    · simp [writeFile, fileLookup, h]
    · simp [writeFile, fileLookup, h, ih]

theorem fileLookup_writeFile_ne (fs : FileSys) {p q : String} (c : String)
    (hpq : q ≠ p) : fileLookup (writeFile fs q c) p = fileLookup fs p := by
  induction fs with
  | nil => simp [writeFile, fileLookup, hpq]
  | cons r t ih =>
    by_cases h : r.1 = q
    · have hrp : ¬ r.1 = p := by rw [h]; exact hpq
      simp [writeFile, fileLookup, h, hpq, hrp, Ne.symm hpq]
    · by_cases h2 : r.1 = p
      · simp [writeFile, fileLookup, h, h2, Ne.symm hpq]
      · simp [writeFile, fileLookup, h, h2, ih]

theorem fileLookup_removeFile_same (fs : FileSys) (p : String) :
    fileLookup (removeFile fs p) p = none := by
  induction fs with
  | nil => simp [removeFile, fileLookup]
  | cons q t ih =>
    by_cases h : q.1 = p
    · simp [removeFile, h, ih]
    · simp [removeFile, fileLookup, h, ih]

theorem fileLookup_removeFile_ne (fs : FileSys) {p q : String} (hpq : q ≠ p) :
    fileLookup (removeFile fs q) p = fileLookup fs p := by
  induction fs with
  | nil => simp [removeFile, fileLookup]
  | cons r t ih =>
    by_cases h : r.1 = q
    · have hrp : ¬ r.1 = p := by rw [h]; exact hpq
      simp [removeFile, fileLookup, h, hrp, hpq, ih]
    · by_cases h2 : r.1 = p
      · simp [removeFile, fileLookup, h, h2, Ne.symm hpq]
      · simp [removeFile, fileLookup, h, h2, ih]

theorem fileLookup_delete_empty_same (fs : FileSys) (p : String) :
    fileLookup (delete_empty_file p fs) p =
      (if fileLookup fs p = some "" then none else fileLookup fs p) := by
  rw [delete_empty_file]
  match h : fileLookup fs p with
  | none => simp [h]
  | some c =>
    by_cases hc : c = ""
    · subst hc
      simp [fileLookup_removeFile_same, h]
    · simp [h, hc]

theorem fileLookup_delete_empty_ne (fs : FileSys) {p q : String} (hpq : q ≠ p) :
    fileLookup (delete_empty_file q fs) p = fileLookup fs p := by
  rw [delete_empty_file]
  match h : fileLookup fs q with
  | none => rfl
  | some c =>
    by_cases hc : c = ""
    · subst hc
      simp [fileLookup_removeFile_ne fs hpq]
    · simp [hc]

/-- Claim C4: `create_property_json` and `create_gbw_json` cache on the
file system: when the target JSON file exists and `force` is off, the
conversion helper is not invoked and the state is untouched; when `force` is
on or the file is absent, the JSON file (and, for the gbw case, the
`.json.conf` file) is deleted first, the config file is written when a
non-empty config is given, and the conversion helper is invoked. -/
theorem create_json_caching :
    (∀ basename st, fileExists st.files (basename ++ ".property.json") = true →
      create_property_json basename false st = st) ∧
    (∀ basename force st,
      force = true ∨ fileExists st.files (basename ++ ".property.json") = false →
      create_property_json basename force st =
        { files := removeFile st.files (basename ++ ".property.json"),
          jsonCalls := st.jsonCalls ++ [[basename, "-property"]] }) ∧
    (∀ wd basename config sfx st,
      fileExists st.files (wd ++ "/" ++ basename ++ ".json") = true →
      create_gbw_json wd basename false config sfx st = st) ∧
    (∀ wd basename force config sfx st,
      force = true ∨ fileExists st.files (wd ++ "/" ++ basename ++ ".json") = false →
      create_gbw_json wd basename force config sfx st =
        { files :=
            (if format_gbw_json_config config = "" then
              removeFile (removeFile st.files (wd ++ "/" ++ basename ++ ".json"))
                (wd ++ "/" ++ basename ++ ".json.conf")
            else
              writeFile
                (removeFile (removeFile st.files (wd ++ "/" ++ basename ++ ".json"))
                  (wd ++ "/" ++ basename ++ ".json.conf"))
                (wd ++ "/" ++ basename ++ ".json.conf")
                (format_gbw_json_config config)),
          jsonCalls := st.jsonCalls ++ [[wd ++ "/" ++ basename ++ sfx]] }) := by
  refine ⟨?_, ?_, ?_, ?_⟩
  · intro basename st h
    simp [create_property_json, h]
  · intro basename force st h
    rcases h with rfl | h
    · simp [create_property_json, run_orca_2json]
    · simp [create_property_json, run_orca_2json, h]
  · intro wd basename config sfx st h
    simp [create_gbw_json, h]
  · intro wd basename force config sfx st h
    rcases h with rfl | h
    · simp [create_gbw_json, run_orca_2json]
    · simp [create_gbw_json, run_orca_2json, h]

/-- Witness for `create_json_caching` at concrete states. -/
theorem create_json_caching_witness :
    create_property_json "job" false
        { files := [("job.property.json", "x")], jsonCalls := [] } =
      { files := [("job.property.json", "x")], jsonCalls := [] } ∧
    create_property_json "job" true
        { files := [("job.property.json", "x")], jsonCalls := [] } =
      { files := [], jsonCalls := [["job", "-property"]] } ∧
    create_gbw_json "/w" "job" false none ".gbw"
        { files := [("/w/job.json", "x")], jsonCalls := [] } =
      { files := [("/w/job.json", "x")], jsonCalls := [] } ∧
    create_gbw_json "/w" "job" false none ".gbw"
        { files := [], jsonCalls := [] } =
      { files := [], jsonCalls := [["/w/job.gbw"]] } := by
  refine ⟨?_, ?_, ?_, ?_⟩
  · exact create_json_caching.1 "job" _ (by decide)
  · exact (create_json_caching.2.1 "job" true _ (Or.inl rfl)).trans (by decide)
  · exact create_json_caching.2.2.1 "/w" "job" none ".gbw" _ (by decide)
  · exact (create_json_caching.2.2.2 "/w" "job" false none ".gbw" _
      (Or.inr (by decide))).trans (by decide)

/-- Claim C5: every `BaseRunner.run` call — returning normally or raising —
leaves the process environment mapping as it found it, and the ORCA / Open
MPI search-path modifications are visible exactly to the child process
started during the call. -/
theorem run_restores_environment (subproc : ProcCall → ProcOut)
    (cfg : RunnerCfg) (binary : OrcaBinary) (args : List String)
    (stdinStr : Option String) (stdout stderr : Option String)
    (silent capture : Bool) (cwd : Option String) (timeout : Int) (w : World) :
    ((run subproc cfg binary args stdinStr stdout stderr silent capture
        cwd timeout w).2).env = w.env ∧
    ∀ c ∈ (run subproc cfg binary args stdinStr stdout stderr silent capture
        cwd timeout w).2.calls,
      c ∈ w.calls ∨ c.env = orcaSetupEnv cfg w.env := by
  constructor
  · rfl
  · intro c hc
    simp only [run, _orca_environment, runBody] at hc
    split at hc
    · exact Or.inl hc
    · rw [List.mem_append] at hc
      rcases hc with hc | hc
      · exact Or.inl hc
      · right
        rw [List.mem_singleton] at hc
        rw [hc]
        rfl

/-- Claim C7: when the requested binary exists, `BaseRunner.run` starts
exactly one child process and waits for it; the process-wait mechanism
receives a finite timeout exactly when the `timeout` argument is positive;
and a timeout expiry surfaces as the distinct `subprocess.TimeoutExpired`
exception (normal completion returns). -/
theorem run_single_process_timeout (subproc : ProcCall → ProcOut)
    (cfg : RunnerCfg) (binary : OrcaBinary) (args : List String)
    (stdinStr : Option String) (stdout stderr : Option String)
    (silent capture : Bool) (cwd : Option String) (timeout : Int) (w : World)
    (hbin : cfg.binaries.any
      (fun q => decide (q = cfg.orcaBinFolder ++ "/" ++ binName binary)) = true) :
    (run subproc cfg binary args stdinStr stdout stderr silent capture
        cwd timeout w).2.calls =
      w.calls ++ [theCall cfg binary args stdinStr cwd timeout (orcaSetupEnv cfg w.env)] ∧
    (theCall cfg binary args stdinStr cwd timeout (orcaSetupEnv cfg w.env)).timeout =
      (if 0 < timeout then some timeout else none) ∧
    (∀ o e, subproc (theCall cfg binary args stdinStr cwd timeout
        (orcaSetupEnv cfg w.env)) = .timedOut o e →
      (run subproc cfg binary args stdinStr stdout stderr silent capture
        cwd timeout w).1 = .error PyErr.timeoutExpired) ∧
    (∀ o e x, subproc (theCall cfg binary args stdinStr cwd timeout
        (orcaSetupEnv cfg w.env)) = .completed o e x →
      (run subproc cfg binary args stdinStr stdout stderr silent capture
        cwd timeout w).1 = .ok ()) := by
  refine ⟨?_, rfl, ?_, ?_⟩
  · simp only [run, _orca_environment, runBody]
    rw [if_neg (by simp [hbin])]
  · intro o e h
    simp only [run, _orca_environment, runBody]
    rw [if_neg (by simp [hbin])]
    simp [h]
  · intro o e x h
    simp only [run, _orca_environment, runBody]
    rw [if_neg (by simp [hbin])]
    simp [h]

/-- Witness for `run_single_process_timeout`: a concrete run whose process
times out raises `TimeoutExpired`, having started exactly one process with
the finite 5-second timeout. -/
theorem run_single_process_timeout_witness :
    (run (fun _ => ProcOut.timedOut "" "")
        { orcaBinFolder := "/opt/orca", orcaLibFolder := "/opt/orca/lib",
          openMpiPath := none, workingDir := "/w",
          binaries := ["/opt/orca/orca"] }
        OrcaBinary.orca ["job.inp"] none none none true false none 5
        { env := [("PATH", "/bin")], files := [], calls := [] }).1 =
      .error PyErr.timeoutExpired ∧
    (run (fun _ => ProcOut.timedOut "" "")
        { orcaBinFolder := "/opt/orca", orcaLibFolder := "/opt/orca/lib",
          openMpiPath := none, workingDir := "/w",
          binaries := ["/opt/orca/orca"] }
        OrcaBinary.orca ["job.inp"] none none none true false none 5
        { env := [("PATH", "/bin")], files := [], calls := [] }).2.calls.length = 1 := by
  have h := run_single_process_timeout (fun _ => ProcOut.timedOut "" "")
    { orcaBinFolder := "/opt/orca", orcaLibFolder := "/opt/orca/lib",
      openMpiPath := none, workingDir := "/w", binaries := ["/opt/orca/orca"] }
    OrcaBinary.orca ["job.inp"] none none none true false none 5
    { env := [("PATH", "/bin")], files := [], calls := [] } (by decide)
  refine ⟨h.2.2.1 "" "" rfl, ?_⟩
  rw [h.1]
  rfl

/-- Claim C9, as written, is false on the code: an exception raised before
the `try` block around `subprocess.run` — here `FileNotFoundError` from
`get_orca_binary` because the binary is missing — skips the `finally` that
deletes empty dump files, so a pre-existing empty file at the stdout dump
path survives the raising call. -/
theorem run_empty_dump_counterexample :
    (run (fun _ => ProcOut.completed "" "" 0)
        { orcaBinFolder := "/opt/orca", orcaLibFolder := "/opt/orca/lib",
          openMpiPath := none, workingDir := "/w", binaries := [] }
        OrcaBinary.orca [] none (some "/w/job.out") none true false none (-1)
        { env := [], files := [("/w/job.out", "")], calls := [] }).1 =
      .error PyErr.fileNotFoundErr ∧
    fileLookup (run (fun _ => ProcOut.completed "" "" 0)
        { orcaBinFolder := "/opt/orca", orcaLibFolder := "/opt/orca/lib",
          openMpiPath := none, workingDir := "/w", binaries := [] }
        OrcaBinary.orca [] none (some "/w/job.out") none true false none (-1)
        { env := [], files := [("/w/job.out", "")], calls := [] }).2.files
      "/w/job.out" = some "" := by
  decide

/-- Claim C9 (amended): in every `BaseRunner.run` call that reaches the
subprocess invocation (the binary exists, so no exception precedes the
`try` block) — whether the process completes or times out — a stdout (resp.
stderr) dump file ends up holding exactly the text the process wrote to the
stream, and is deleted when that text is empty; distinct dump paths are
assumed when both are given. -/
theorem run_dump_cleanup (subproc : ProcCall → ProcOut) (cfg : RunnerCfg)
    (binary : OrcaBinary) (args : List String) (stdinStr : Option String)
    (stdout stderr : Option String) (silent capture : Bool)
    (cwd : Option String) (timeout : Int) (w : World)
    (hbin : cfg.binaries.any
      (fun q => decide (q = cfg.orcaBinFolder ++ "/" ++ binName binary)) = true)
    (hdistinct : ∀ a b, stdout = some a → stderr = some b → a ≠ b) :
    (∀ a, stdout = some a →
      fileLookup (run subproc cfg binary args stdinStr stdout stderr silent
          capture cwd timeout w).2.files a =
        (if (subproc (theCall cfg binary args stdinStr cwd timeout
            (orcaSetupEnv cfg w.env))).outText = "" then none
         else some (subproc (theCall cfg binary args stdinStr cwd timeout
            (orcaSetupEnv cfg w.env))).outText)) ∧
    (∀ b, stderr = some b →
      fileLookup (run subproc cfg binary args stdinStr stdout stderr silent
          capture cwd timeout w).2.files b =
        (if (subproc (theCall cfg binary args stdinStr cwd timeout
            (orcaSetupEnv cfg w.env))).errText = "" then none
         else some (subproc (theCall cfg binary args stdinStr cwd timeout
            (orcaSetupEnv cfg w.env))).errText)) := by
  constructor
  · intro a ha
    subst ha
    simp only [run, _orca_environment, runBody]
    rw [if_neg (by simp [hbin])]
    match hs : stderr with
    | none =>
      simp only []
      rw [fileLookup_delete_empty_same, fileLookup_writeFile_same]
      by_cases h0 : (subproc (theCall cfg binary args stdinStr cwd timeout
          (orcaSetupEnv cfg w.env))).outText = ""
      · simp [h0]
      · simp [h0]
    | some b =>
      have hab : b ≠ a := (hdistinct a b rfl rfl).symm
      simp only []
      rw [fileLookup_delete_empty_ne _ hab, fileLookup_delete_empty_same,
        fileLookup_writeFile_ne _ _ hab, fileLookup_writeFile_same]
      by_cases h0 : (subproc (theCall cfg binary args stdinStr cwd timeout
          (orcaSetupEnv cfg w.env))).outText = ""
      · simp [h0]
      · simp [h0]
  · intro b hb
    subst hb
    simp only [run, _orca_environment, runBody]
    rw [if_neg (by simp [hbin])]
    match hs : stdout with
    | none =>
      simp only []
      rw [fileLookup_delete_empty_same, fileLookup_writeFile_same]
      by_cases h0 : (subproc (theCall cfg binary args stdinStr cwd timeout
          (orcaSetupEnv cfg w.env))).errText = ""
      · simp [h0]
      · simp [h0]
    | some a =>
      have hab : a ≠ b := hdistinct a b rfl rfl
      simp only []
      rw [fileLookup_delete_empty_same, fileLookup_delete_empty_ne _ hab,
        fileLookup_writeFile_same]
      by_cases h0 : (subproc (theCall cfg binary args stdinStr cwd timeout
          (orcaSetupEnv cfg w.env))).errText = ""
      · simp [h0]
      · simp [h0]

/-- Witness for `run_dump_cleanup`: with an existing binary and a process
that writes nothing to stdout but text to stderr, the empty stdout dump is
deleted and the stderr dump keeps the text. -/
theorem run_dump_cleanup_witness :
    fileLookup (run (fun _ => ProcOut.completed "" "oops" 0)
        { orcaBinFolder := "/opt/orca", orcaLibFolder := "/opt/orca/lib",
          openMpiPath := none, workingDir := "/w",
          binaries := ["/opt/orca/orca"] }
        OrcaBinary.orca [] none (some "/w/job.out") (some "/w/job.err")
        true false none (-1)
        { env := [], files := [("/w/job.out", "stale")], calls := [] }).2.files
      "/w/job.out" = none ∧
    fileLookup (run (fun _ => ProcOut.completed "" "oops" 0)
        { orcaBinFolder := "/opt/orca", orcaLibFolder := "/opt/orca/lib",
          openMpiPath := none, workingDir := "/w",
          binaries := ["/opt/orca/orca"] }
        OrcaBinary.orca [] none (some "/w/job.out") (some "/w/job.err")
        true false none (-1)
        { env := [], files := [("/w/job.out", "stale")], calls := [] }).2.files
      "/w/job.err" = some "oops" := by
  have h := run_dump_cleanup (fun _ => ProcOut.completed "" "oops" 0)
    { orcaBinFolder := "/opt/orca", orcaLibFolder := "/opt/orca/lib",
      openMpiPath := none, workingDir := "/w", binaries := ["/opt/orca/orca"] }
    OrcaBinary.orca [] none (some "/w/job.out") (some "/w/job.err")
    true false none (-1)
    { env := [], files := [("/w/job.out", "stale")], calls := [] }
    (by decide) (by intro a b ha hb; injection ha; injection hb; subst a; subst b; decide)
  exact ⟨(h.1 "/w/job.out" rfl).trans (by decide), (h.2 "/w/job.err" rfl).trans (by decide)⟩

/-- Claim C6: `set_orca_path` resolves the ORCA location by exactly the
priority order: explicit argument, then the `OPI_ORCA` environment variable,
then the `ORCA_PATH` config entry, then the `orca` binary on the system
`PATH`; when none yields a path, `RuntimeError` is raised. -/
theorem set_orca_path_priority :
    (∀ p env config which, set_orca_path_choice (some p) env config which = .ok p) ∧
    (∀ env config which p, truthyStr env = some p →
      set_orca_path_choice none env config which = .ok p) ∧
    (∀ env config which p, truthyStr env = none → truthyStr config = some p →
      set_orca_path_choice none env config which = .ok p) ∧
    (∀ env config p, truthyStr env = none → truthyStr config = none →
      set_orca_path_choice none env config (some p) = .ok p) ∧
    (∀ env config, truthyStr env = none → truthyStr config = none →
      set_orca_path_choice none env config none = .error PyErr.runtimeErr) := by
  refine ⟨?_, ?_, ?_, ?_, ?_⟩
  · intro p env config which
    rfl
  · intro env config which p h
    simp [set_orca_path_choice, h]
  · intro env config which p h1 h2
    simp [set_orca_path_choice, h1, h2]
  · intro env config p h1 h2
    simp [set_orca_path_choice, h1, h2]
  · intro env config h1 h2
    simp [set_orca_path_choice, h1, h2]

/-- Witness for `set_orca_path_priority` at concrete values, including the
empty-string (falsy) treatment of the environment variable. -/
theorem set_orca_path_priority_witness :
    set_orca_path_choice (some "/arg") (some "/env") (some "/cfg") (some "/path") =
      .ok "/arg" ∧
    set_orca_path_choice none (some "/env") (some "/cfg") (some "/path") =
      .ok "/env" ∧
    set_orca_path_choice none (some "") (some "/cfg") (some "/path") = .ok "/cfg" ∧
    set_orca_path_choice none none none (some "/path") = .ok "/path" ∧
    set_orca_path_choice none (some "") none none = .error PyErr.runtimeErr := by
  refine ⟨?_, ?_, ?_, ?_, ?_⟩
  · exact set_orca_path_priority.1 "/arg" (some "/env") (some "/cfg") (some "/path")
  · exact set_orca_path_priority.2.1 (some "/env") (some "/cfg") (some "/path")
      "/env" (by decide)
  · exact set_orca_path_priority.2.2.1 (some "") (some "/cfg") (some "/path")
      "/cfg" (by decide) (by decide)
  · exact set_orca_path_priority.2.2.2.1 none none "/path" (by decide) (by decide)
  · exact set_orca_path_priority.2.2.2.2 (some "") none (by decide) (by decide)

/-- Claim C8: assigning `Calculator.basename` raises `TypeError` for every
non-string, `ValueError` for every string containing a space and for the
empty string, and stores every other string so that the getter returns
exactly it. -/
theorem basename_validation :
    (∀ v : PyVal, (∀ s, v ≠ PyVal.pstr s) → basename_setter v = .error PyErr.typeErr) ∧
    (∀ s, s.toList.contains ' ' = true →
      basename_setter (PyVal.pstr s) = .error PyErr.valueErr) ∧
    basename_setter (PyVal.pstr "") = .error PyErr.valueErr ∧
    (∀ s, s ≠ "" → s.toList.contains ' ' = false →
      basename_setter (PyVal.pstr s) = .ok s ∧ basename_getter s = .ok s) := by
  refine ⟨?_, ?_, by decide, ?_⟩
  · intro v hv
    match v with
    | .pstr s => exact absurd rfl (hv s)
    | .pint n => rfl
    | .pfloat q => rfl
    | .pnone => rfl
  · intro s h
    simp only [basename_setter]
    rw [if_pos (by rw [h])]
  · intro s hne hsp
    constructor
    · simp only [basename_setter]
      rw [if_neg (by rw [hsp]; simp), if_neg hne]
    · simp only [basename_getter]
      rw [if_neg hne]

/-- Witness for `basename_validation` at concrete values. -/
theorem basename_validation_witness :
    basename_setter (PyVal.pint 3) = .error PyErr.typeErr ∧
    basename_setter (PyVal.pstr "my job") = .error PyErr.valueErr ∧
    basename_setter (PyVal.pstr "job1") = .ok "job1" ∧
    basename_getter "job1" = .ok "job1" := by
  have h4 := basename_validation.2.2.2 "job1" (by decide) (by decide)
  exact ⟨basename_validation.1 (PyVal.pint 3) (fun s h => by injection h),
    basename_validation.2.1 "my job" (by decide), h4.1, h4.2⟩

/-- Claim C10: `working_dir` is never unset: assigning `None` (also at
initialization) resets it to the current working directory; assigning a
non-directory raises `ValueError` and leaves the previous value unchanged;
assigning an existing directory stores its user-expanded, fully resolved
path; hence after `__init__` the attribute is always the current working
directory or a resolved directory. -/
theorem working_dir_never_unset :
    (∀ fs cur, working_dir_update fs none cur = (.ok (), fs.cwd)) ∧
    (∀ fs v cur, fs.isDirF v = false →
      working_dir_update fs (some v) cur = (.error PyErr.valueErr, cur)) ∧
    (∀ fs v cur, fs.isDirF v = true →
      working_dir_update fs (some v) cur =
        (.ok (), fs.resolveF (fs.expanduserF v))) ∧
    (∀ fs value, (working_dir_init fs value).2 = fs.cwd ∨
      ∃ v, value = some v ∧ fs.isDirF v = true ∧
        (working_dir_init fs value).2 = fs.resolveF (fs.expanduserF v)) := by
  refine ⟨?_, ?_, ?_, ?_⟩
  · intro fs cur
    rfl
  · intro fs v cur h
    simp [working_dir_update, working_dir_setter, h]
  · intro fs v cur h
    simp [working_dir_update, working_dir_setter, h]
  · intro fs value
    match value with
    | none => exact Or.inl rfl
    | some v =>
      by_cases h : fs.isDirF v = true
      · exact Or.inr ⟨v, rfl, h, by
          simp [working_dir_init, working_dir_update, working_dir_setter, h]⟩
      · left
        simp only [Bool.not_eq_true] at h
        simp [working_dir_init, working_dir_update, working_dir_setter, h]

/-- Witness for `working_dir_never_unset` at a concrete file system. -/
theorem working_dir_never_unset_witness :
    working_dir_update
        { cwd := "/home/u", isDirF := fun p => decide (p = "/data"),
          expanduserF := fun p => p, resolveF := fun p => "/abs" ++ p }
        none "/old" = (.ok (), "/home/u") ∧
    working_dir_update
        { cwd := "/home/u", isDirF := fun p => decide (p = "/data"),
          expanduserF := fun p => p, resolveF := fun p => "/abs" ++ p }
        (some "/nope") "/old" = (.error PyErr.valueErr, "/old") ∧
    working_dir_update
        { cwd := "/home/u", isDirF := fun p => decide (p = "/data"),
          expanduserF := fun p => p, resolveF := fun p => "/abs" ++ p }
        (some "/data") "/old" = (.ok (), "/abs/data") := by
  refine ⟨?_, ?_, ?_⟩
  · exact working_dir_never_unset.1 _ "/old"
  · exact (working_dir_never_unset.2.1 _ "/nope" "/old" (by decide))
  · exact (working_dir_never_unset.2.2.1 _ "/data" "/old" (by decide)).trans
      (by decide)

end Opi
